import Mathlib

/-!
Shallow embedding of the fping response aggregator and request-builder
validation (src/index.ts).  JavaScript strings are modelled as `List Char`,
JavaScript numbers as `ℚ` (exact rationals standing in for IEEE doubles;
`NaN` is modelled by `Option`, the `Infinity` literal of `parseFloat` is
outside the rational model and is treated like a non-numeric token, which is
unreachable for the tool output the aggregator consumes).  `Math.sqrt` is an
uninterpreted parameter `sqrtf : ℚ → ℚ` since exact square roots leave ℚ.
-/

/-- Character class used by the model of `String.prototype.trim`. -/
def isWS (c : Char) : Bool :=
  c = ' ' || c = '\t' || c = '\n' || c = '\r' || c = '\x0b' || c = '\x0c'

/-- Model of JavaScript `s.trim()`: drop whitespace from both ends. -/
def jsTrim (cs : List Char) : List Char :=
  ((cs.dropWhile isWS).reverse.dropWhile isWS).reverse

/-- Push a character onto the first group of a split (helper for `jsSplitChar`). -/
def consHead (c : Char) : List (List Char) → List (List Char)
  | [] => [[c]]
  | g :: gs => (c :: g) :: gs

/-- Model of JavaScript `s.split(sep)` for a one-character separator:
splits at every occurrence; the empty string yields `[""]`. -/
def jsSplitChar (sep : Char) : List Char → List (List Char)
  | [] => [[]]
  | c :: rest =>
    if c = sep then [] :: jsSplitChar sep rest
    else consHead c (jsSplitChar sep rest)

/-- Decimal digit test, as in the ECMAScript StrDecimalLiteral grammar. -/
def isDigitCh (c : Char) : Bool := '0' ≤ c && c ≤ '9'

/-- Take the longest digit run off the front, returning digit values and rest. -/
def takeDigits : List Char → List ℕ × List Char
  | [] => ([], [])
  | c :: rest =>
    if isDigitCh c then
      ((c.toNat - 48) :: (takeDigits rest).1, (takeDigits rest).2)
    else ([], c :: rest)

/-- Value of a digit run read in base ten. -/
def digitsToNat (ds : List ℕ) : ℕ := ds.foldl (fun a d => 10 * a + d) 0

/-- Parse the unsigned mantissa of a StrDecimalLiteral prefix:
`Digits [. Digits]`, `Digits .`, or `. Digits`; at least one digit overall.
Returns the mantissa value and the unconsumed remainder. -/
def parseMantissa (cs : List Char) : Option (ℚ × List Char) :=
  let p1 := takeDigits cs
  if p1.2.head? = some '.' then
    let p2 := takeDigits p1.2.tail
    if p1.1.isEmpty && p2.1.isEmpty then none
    else some ((digitsToNat (p1.1 ++ p2.1) : ℚ) / 10 ^ p2.1.length, p2.2)
  else if p1.1.isEmpty then none
  else some ((digitsToNat p1.1 : ℚ), p1.2)

/-- Apply an exponent digit run (if any) to a parsed mantissa. -/
def expDigits (v : ℚ) (sign : ℤ) (r : List Char) : ℚ :=
  if (takeDigits r).1.isEmpty then v
  else v * (10 : ℚ) ^ (sign * (digitsToNat (takeDigits r).1 : ℤ))

/-- Consume an optional ExponentPart (`e`/`E`, optional sign, digits);
if the digits are missing the exponent is not part of the literal. -/
def applyExponent (v : ℚ) (rest : List Char) : ℚ :=
  if rest.head? = some 'e' || rest.head? = some 'E' then
    if rest.tail.head? = some '+' then expDigits v 1 rest.tail.tail
    else if rest.tail.head? = some '-' then expDigits v (-1) rest.tail.tail
    else expDigits v 1 rest.tail
  else v

/-- Parse an unsigned mantissa-with-exponent prefix. -/
def parseUnsignedFloat (cs : List Char) : Option ℚ :=
  (parseMantissa cs).map fun p => applyExponent p.1 p.2

/-- Model of JavaScript `parseFloat`: skip leading whitespace, read the
longest StrDecimalLiteral prefix; `none` models the `NaN` result. -/
def parseFloatChars (cs : List Char) : Option ℚ :=
  let t := cs.dropWhile isWS
  if t.head? = some '-' then (parseUnsignedFloat t.tail).map fun v => -v
  else if t.head? = some '+' then parseUnsignedFloat t.tail
  else parseUnsignedFloat t

/-- Model of `parseFloat(ping) || timeout` (src/index.ts line 127): the
`||` takes the right operand exactly when the left is falsy, i.e. when
`parseFloat` returned `NaN` or the parsed value is (negative) zero. -/
def parseToken (timeout : ℚ) (tok : List Char) : ℚ :=
  (parseFloatChars tok).elim timeout fun v => if v = 0 then timeout else v

/-- Model of `response.split(' ').map(ping => parseFloat(ping) || timeout)`
(src/index.ts lines 126-127). -/
def parseTimes (timeout : ℚ) (response : List Char) : List ℚ :=
  (jsSplitChar ' ' response).map (parseToken timeout)

/-- Model of the helper `toFixed` (src/index.ts lines 26-27):
`parseFloat(value.toFixed(digits))`, i.e. round to `digits` fractional
decimal digits, nearest with ties taken upward as `Number.prototype.toFixed`
prescribes, and read the decimal back as a number. -/
def toFixed (digits : ℕ) (value : ℚ) : ℚ :=
  (⌊value * 10 ^ digits + 1 / 2⌋ : ℚ) / 10 ^ digits

/-- Model of `Math.min(...times)` on a nonempty argument list. -/
def jsMin : List ℚ → ℚ
  | [] => 0
  | x :: xs => xs.foldl min x

/-- Model of `Math.max(...times)` on a nonempty argument list. -/
def jsMax : List ℚ → ℚ
  | [] => 0
  | x :: xs => xs.foldl max x

/-- Embedding of the `fping.Result` record (src/index.ts lines 215-225,
src/types.ts lines 87-97). -/
structure Result where
  target : List Char
  sent : ℕ
  received : ℕ
  loss : ℚ
  avg : ℚ
  min : ℚ
  max : ℚ
  stddev : ℚ
  times : List ℚ
deriving DecidableEq

/-- Embedding of the per-line Result construction (src/index.ts lines
126-144): parse the data section into `times`, count replies strictly below
`timeout`, and assemble the rounded statistics.  `sqrtf` stands for
`Math.sqrt`; the `stddev` call of `toFixed` passes no digit count in the
source, so it uses the default of 3.  JavaScript `reduce((a, b) => a + b)`
on the (always nonempty) `times` array is the list sum. -/
def mkResult (sqrtf : ℚ → ℚ) (timeout : ℚ) (digits lossDigits : ℕ)
    (host response : List Char) : Result :=
  let times := parseTimes timeout response
  let received := (times.filter fun p => decide (p < timeout)).length
  let avg := times.sum / (times.length : ℚ)
  { target := host
    sent := times.length
    received := received
    loss := toFixed lossDigits (1 - (received : ℚ) / (times.length : ℚ))
    avg := toFixed digits avg
    min := toFixed digits (jsMin times)
    max := toFixed digits (jsMax times)
    stddev := toFixed 3 (sqrtf ((times.map fun x => (x - avg) ^ 2).sum / (times.length : ℚ)))
    times := times.map (toFixed digits) }

/-- Embedding of the `Record<string, fping.Result | undefined>` object that
the aggregator fills: an association list in which a later assignment to the
same host shadows the earlier one (newest entry first). -/
abbrev ResultSet := List (List Char × Result)

/-- Model of the assignment `result[host] = ...`. -/
def setResult (m : ResultSet) (host : List Char) (r : Result) : ResultSet :=
  (host, r) :: m

/-- Model of reading `result[host]`: the latest assignment, if any. -/
def getResult (m : ResultSet) (host : List Char) : Option Result :=
  (m.find? fun p => p.1 == host).map fun p => p.2

/-- Embedding of the line preprocessing (src/index.ts lines 118-121):
split the raw text on newlines, trim each line, drop empty lines, then
split each survivor on colons and trim each column. -/
def splitLines (raw : List Char) : List (List (List Char)) :=
  (((jsSplitChar '\n' raw).map jsTrim).filter fun l => !l.isEmpty).map
    fun l => (jsSplitChar ':' l).map jsTrim

/-- Embedding of the `for (const [host, response] of lines)` loop
(src/index.ts lines 125-145).  A line whose colon split has fewer than two
columns destructures `response` to `undefined`, and `response.split(' ')`
then throws a TypeError; the `.error` value models that thrown exception. -/
def processLines (sqrtf : ℚ → ℚ) (timeout : ℚ) (digits lossDigits : ℕ) :
    List (List (List Char)) → ResultSet → Except String ResultSet
  | [], acc => .ok acc
  | (host :: response :: _) :: rest, acc =>
    processLines sqrtf timeout digits lossDigits rest
      (setResult acc host (mkResult sqrtf timeout digits lossDigits host response))
  | _ :: _, _ => .error "TypeError: response is undefined"

/-- Embedding of the whole response aggregator (src/index.ts lines 117-147):
from the raw captured text to the result record. -/
def aggregate (sqrtf : ℚ → ℚ) (timeout : ℚ) (digits lossDigits : ℕ)
    (raw : List Char) : Except String ResultSet :=
  processLines sqrtf timeout digits lossDigits (splitLines raw) []

/-- Embedding of the fully populated `fping.Options` record (src/index.ts
lines 152-213). -/
structure Options where
  bytes : ℚ
  backoff : ℚ
  count : ℚ
  interval : ℚ
  period : ℚ
  retry : ℚ
  random : Bool
  timeout : ℚ
  digits : ℚ
  lossDigits : ℚ
deriving DecidableEq

/-- Embedding of the caller-supplied `Partial<fping.Options>` argument:
every field may be absent. -/
structure PartialOptions where
  bytes : Option ℚ := none
  backoff : Option ℚ := none
  count : Option ℚ := none
  interval : Option ℚ := none
  period : Option ℚ := none
  retry : Option ℚ := none
  random : Option Bool := none
  timeout : Option ℚ := none
  digits : Option ℚ := none
  lossDigits : Option ℚ := none

/-- Embedding of the `??=` defaulting block (src/index.ts lines 52-61),
which overwrites each unset field of the caller object with its default. -/
def applyDefaults (p : PartialOptions) : Options :=
  { bytes := p.bytes.getD 56
    backoff := p.backoff.getD 1.5
    count := p.count.getD 1
    interval := p.interval.getD 10
    period := p.period.getD 1000
    retry := p.retry.getD 3
    random := p.random.getD true
    timeout := p.timeout.getD 500
    digits := p.digits.getD 3
    lossDigits := p.lossDigits.getD 4 }

/-- The soft-constraint clamps of the validation block (src/index.ts lines
71-85): `backoff < 0` and `interval/period/retry/timeout/digits <= 0` are
overwritten with 0.  The source clamps the fields one mutation at a time;
as the clamped fields are pairwise distinct, that equals this simultaneous
form (proved against the sequential `validateOptions` in
`validateOptions_eq`). -/
def clampSoft (o : Options) : Options :=
  { o with
    backoff := if o.backoff < 0 then 0 else o.backoff
    interval := if o.interval ≤ 0 then 0 else o.interval
    period := if o.period ≤ 0 then 0 else o.period
    retry := if o.retry ≤ 0 then 0 else o.retry
    timeout := if o.timeout ≤ 0 then 0 else o.timeout
    digits := if o.digits ≤ 0 then 0 else o.digits }

/-- Embedding of the option validation block (src/index.ts lines 67-89), in
source order: the `bytes` check, the `backoff` clamp, the `count` check, the
five `<= 0` clamps, then the `lossDigits` check.  The `.error` values carry
the exact thrown messages; on success the mutated options object results. -/
def validateOptions (o : Options) : Except String Options :=
  if o.bytes < 40 then .error "Bytes must be at least 40 bytes"
  else
    let o := if o.backoff < 0 then { o with backoff := 0 } else o
    if o.count ≤ 0 then .error "Count must be >= 1"
    else
      let o := if o.interval ≤ 0 then { o with interval := 0 } else o
      let o := if o.period ≤ 0 then { o with period := 0 } else o
      let o := if o.retry ≤ 0 then { o with retry := 0 } else o
      let o := if o.timeout ≤ 0 then { o with timeout := 0 } else o
      let o := if o.digits ≤ 0 then { o with digits := 0 } else o
      if o.lossDigits < 2 then .error "lossDigits must be at least 2"
      else .ok o


/-! ### Basic facts about the rounding helper -/

theorem toFixed_cast_div (d : ℕ) (k : ℤ) : toFixed d ((k : ℚ) / 10 ^ d) = (k : ℚ) / 10 ^ d := by
  unfold toFixed
  have h10 : ((10 : ℚ) ^ d) ≠ 0 := by positivity
  rw [div_mul_cancel₀ _ h10]
  rw [show ((10 : ℚ) ^ d) = ((10 ^ d : ℤ) : ℚ) by push_cast; ring] at *
  rw [show ((k : ℚ) + 1 / 2) = ((k : ℤ) : ℚ) + 1 / 2 by norm_num]
  rw [Int.floor_int_add]
  norm_num

theorem toFixed_mono (d : ℕ) {x y : ℚ} (h : x ≤ y) : toFixed d x ≤ toFixed d y := by
  unfold toFixed
  have hpos : (0 : ℚ) < 10 ^ d := by positivity
  apply div_le_div_of_nonneg_right _ hpos.le
  exact_mod_cast Int.floor_le_floor (by nlinarith)

theorem toFixed_one (d : ℕ) : toFixed d 1 = 1 := by
  have h := toFixed_cast_div d (10 ^ d)
  have h10 : ((10 : ℚ) ^ d) ≠ 0 := by positivity
  have hc : (((10 : ℤ) ^ d : ℤ) : ℚ) = (10 : ℚ) ^ d := by push_cast; ring
  rw [hc, div_self h10] at h
  exact h

theorem toFixed_zero (d : ℕ) : toFixed d 0 = 0 := by
  have h := toFixed_cast_div d 0
  simpa using h

theorem toFixed_nonneg (d : ℕ) {x : ℚ} (h : 0 ≤ x) : 0 ≤ toFixed d x := by
  have hm := toFixed_mono d h
  rwa [toFixed_zero] at hm

theorem toFixed_le_one (d : ℕ) {x : ℚ} (h : x ≤ 1) : toFixed d x ≤ 1 := by
  have hm := toFixed_mono d h
  rwa [toFixed_one] at hm

/-! ### List helper lemmas -/

theorem length_filter_lt_of_mem {α : Type} {l : List α} {p : α → Bool} {a : α}
    (ha : a ∈ l) (hpa : p a = false) : (l.filter p).length < l.length := by
  induction l with
  | nil => cases ha
  | cons x xs ih =>
    rw [List.filter_cons]
    rcases List.mem_cons.mp ha with h | h
    · subst h
      rw [hpa, if_neg Bool.false_ne_true]
      exact Nat.lt_succ_of_le (List.length_filter_le p xs)
    · by_cases hx : p x = true
      · rw [if_pos hx]
        simpa using Nat.succ_lt_succ (ih h)
      · rw [if_neg hx]
        exact Nat.lt_succ_of_lt (ih h)

/-! ### C9 -/

/-- C9: the rounding helper used throughout the aggregator is idempotent:
rounding an already-rounded value to the same digit count is a no-op. -/
theorem toFixed_idempotent (n : ℕ) (x : ℚ) :
    toFixed n (toFixed n x) = toFixed n x :=
  toFixed_cast_div n ⌊x * 10 ^ n + 1 / 2⌋

/-! ### C5 -/

/-- C5: for every parsed line, the stored stddev is the square root of the
mean squared deviation from the UNROUNDED arithmetic mean, rounded to a
fixed 3 fractional digits — independent of the configured `digits`, which
does round the stored avg. -/
theorem stddev_three_digits_unrounded_avg (sqrtf : ℚ → ℚ) (timeout : ℚ)
    (digits lossDigits : ℕ) (host response : List Char) :
    (mkResult sqrtf timeout digits lossDigits host response).stddev =
      toFixed 3 (sqrtf (((parseTimes timeout response).map fun x =>
          (x - (parseTimes timeout response).sum /
            ((parseTimes timeout response).length : ℚ)) ^ 2).sum /
        ((parseTimes timeout response).length : ℚ))) ∧
    (mkResult sqrtf timeout digits lossDigits host response).avg =
      toFixed digits ((parseTimes timeout response).sum /
        ((parseTimes timeout response).length : ℚ)) ∧
    ∀ d1 d2 : ℕ,
      (mkResult sqrtf timeout d1 lossDigits host response).stddev =
        (mkResult sqrtf timeout d2 lossDigits host response).stddev :=
  ⟨rfl, rfl, fun _ _ => rfl⟩

/-! ### C4 -/

/-- C4: for every parsed line, `received` is the number of entries of the
parsed `times` sequence strictly below `timeout`; consequently a line
containing an entry exactly equal to `timeout` (sentinel or genuine reply)
has that entry counted as lost, so `received < sent`. -/
theorem received_counts_strictly_below (sqrtf : ℚ → ℚ) (timeout : ℚ)
    (digits lossDigits : ℕ) (host response : List Char) :
    (mkResult sqrtf timeout digits lossDigits host response).received =
      ((parseTimes timeout response).filter fun p => decide (p < timeout)).length ∧
    (timeout ∈ parseTimes timeout response →
      (mkResult sqrtf timeout digits lossDigits host response).received <
        (mkResult sqrtf timeout digits lossDigits host response).sent) := by
  constructor
  · rfl
  · intro hmem
    show ((parseTimes timeout response).filter fun p => decide (p < timeout)).length <
      (parseTimes timeout response).length
    exact length_filter_lt_of_mem hmem (by simp)

/-- Witness for C4 at a concrete input: the line data `"x"` parses to the
single sentinel entry `[500]`, which is counted as lost. -/
theorem received_counts_strictly_below_witness :
    (mkResult id 500 3 4 ['h'] ['x']).received < (mkResult id 500 3 4 ['h'] ['x']).sent :=
  (received_counts_strictly_below id 500 3 4 ['h'] ['x']).2 (by decide)

/-! ### C1 -/

/-- C1 counterexample: the token `"0"` parses as the number 0, yet it is
not kept at its parsed value — `parseFloat(ping) || timeout` replaces the
falsy 0 with the timeout sentinel. -/
theorem token_zero_replaced_cex :
    parseFloatChars ['0'] = some 0 ∧ parseToken 500 ['0'] = 500 ∧ (500 : ℚ) ≠ 0 :=
  ⟨by decide, by decide, by decide⟩

/-- C1 amended: a sample token that parses as a NONZERO number is kept at
its parsed value; a token that fails to parse, or parses to (negative)
zero, is replaced by the timeout value. -/
theorem token_parse_amended (timeout : ℚ) (tok : List Char) :
    (∀ v : ℚ, parseFloatChars tok = some v → v ≠ 0 → parseToken timeout tok = v) ∧
    (parseFloatChars tok = none → parseToken timeout tok = timeout) ∧
    (∀ v : ℚ, parseFloatChars tok = some v → v = 0 → parseToken timeout tok = timeout) := by
  refine ⟨fun v hv hv0 => ?_, fun hn => ?_, fun v hv hv0 => ?_⟩
  · simp [parseToken, hv, hv0]
  · simp [parseToken, hn]
  · simp [parseToken, hv, hv0]

/-- Witness for C1 at concrete tokens: `"7"` is kept at 7, `"z"` becomes
the sentinel. -/
theorem token_parse_amended_witness :
    parseToken 500 ['7'] = 7 ∧ parseToken 500 ['z'] = 500 :=
  ⟨(token_parse_amended 500 ['7']).1 7 (by decide) (by decide),
   (token_parse_amended 500 ['z']).2.1 (by decide)⟩

/-! ### C3 -/

/-- C3 counterexample: the raw line `"h:"` has an empty data section, yet
the aggregator does not produce a zero-sample Result: `"".split(' ')` is
`[""]`, the empty token fails to parse and becomes the sentinel, so the
Result has `sent = 1`, not 0. -/
theorem empty_data_cex :
    aggregate id 500 3 4 ['h', ':'] = .ok [(['h'], mkResult id 500 3 4 ['h'] [])] ∧
    (mkResult id 500 3 4 ['h'] []).sent = 1 :=
  ⟨rfl, rfl⟩

/-- C3 amended: a line whose data section is empty after the colon split
yields a ONE-sample Result whose single entry is the timeout sentinel:
`sent = 1`, `received = 0`, `loss = 1`, `times = [round(timeout)]` — not a
zero-sample result and not a thrown error. -/
theorem empty_data_amended (sqrtf : ℚ → ℚ) (timeout : ℚ)
    (digits lossDigits : ℕ) (host : List Char) :
    (mkResult sqrtf timeout digits lossDigits host []).sent = 1 ∧
    (mkResult sqrtf timeout digits lossDigits host []).received = 0 ∧
    (mkResult sqrtf timeout digits lossDigits host []).loss = 1 ∧
    (mkResult sqrtf timeout digits lossDigits host []).times = [toFixed digits timeout] := by
  have ht : parseTimes timeout [] = [timeout] := rfl
  have h1 : ((parseTimes timeout []).filter fun p => decide (p < timeout)).length = 0 := by
    rw [ht]
    simp
  refine ⟨rfl, h1, ?_, rfl⟩
  show toFixed lossDigits
      (1 - ((((parseTimes timeout []).filter fun p => decide (p < timeout)).length : ℚ) /
        ((parseTimes timeout []).length : ℚ))) = 1
  rw [h1, ht]
  norm_num [toFixed_one]

/-! ### Split lemmas used for the error characterization -/

theorem jsSplitChar_ne_nil (sep : Char) (l : List Char) : jsSplitChar sep l ≠ [] := by
  induction l with
  | nil => simp [jsSplitChar]
  | cons c rest ih =>
    simp only [jsSplitChar]
    split_ifs
    · simp
    · rcases hr : jsSplitChar sep rest with _ | ⟨g, gs⟩
      · exact absurd hr ih
      · simp [hr, consHead]

theorem jsSplitChar_length (sep : Char) (l : List Char) :
    (jsSplitChar sep l).length = l.count sep + 1 := by
  induction l with
  | nil => simp [jsSplitChar]
  | cons c rest ih =>
    simp only [jsSplitChar]
    split_ifs with h
    · subst h
      simp [List.count_cons, ih]
    · rcases hr : jsSplitChar sep rest with _ | ⟨g, gs⟩
      · exact absurd hr (jsSplitChar_ne_nil sep rest)
      · rw [hr] at ih
        simp only [consHead, List.length_cons] at ih ⊢
        have hcount : List.count sep (c :: rest) = List.count sep rest := by
          simp [List.count_cons, h, show sep ≠ c from fun hh => h hh.symm]
        rw [hcount]
        omega

theorem jsSplitChar_length_lt_two_iff (sep : Char) (l : List Char) :
    (jsSplitChar sep l).length < 2 ↔ sep ∉ l := by
  rw [jsSplitChar_length]
  rw [show l.count sep + 1 < 2 ↔ l.count sep = 0 by omega]
  exact List.count_eq_zero

theorem processLines_error_iff (sqrtf : ℚ → ℚ) (timeout : ℚ) (digits lossDigits : ℕ)
    (ls : List (List (List Char))) (acc : ResultSet) :
    (∃ e, processLines sqrtf timeout digits lossDigits ls acc = .error e) ↔
      ∃ parts ∈ ls, parts.length < 2 := by
  induction ls generalizing acc with
  | nil =>
    constructor
    · rintro ⟨e, he⟩
      exact absurd he (by simp [processLines])
    · rintro ⟨parts, hmem, _⟩
      cases hmem
  | cons parts rest ih =>
    rcases parts with _ | ⟨host, _ | ⟨response, tailcols⟩⟩
    · constructor
      · intro _
        exact ⟨[], List.mem_cons_self _ _, by norm_num⟩
      · intro _
        exact ⟨"TypeError: response is undefined", rfl⟩
    · constructor
      · intro _
        exact ⟨[host], List.mem_cons_self _ _, by norm_num⟩
      · intro _
        exact ⟨"TypeError: response is undefined", rfl⟩
    · constructor
      · intro he
        rcases (ih _).mp he with ⟨q, hmem, hlen⟩
        exact ⟨q, List.mem_cons_of_mem _ hmem, hlen⟩
      · rintro ⟨q, hmem, hlen⟩
        rcases List.mem_cons.mp hmem with h1 | h1
        · subst h1
          simp only [List.length_cons] at hlen
          omega
        · exact (ih _).mpr ⟨q, h1, hlen⟩

/-! ### C2 -/

/-- C2 counterexample: on the raw text `"hi"` — a non-blank line with no
colon — the aggregator does not return a ResultSet: the destructured
`response` is `undefined` and `response.split(' ')` throws. -/
theorem colonless_line_throws_cex :
    aggregate id 500 3 4 ['h', 'i'] = .error "TypeError: response is undefined" := rfl

/-- C2 amended: the aggregator raises an error exactly when some line of
the raw text is non-blank after trimming yet contains no colon; blank
(whitespace-only) lines are silently discarded and per-token parse issues
never raise. -/
theorem aggregate_error_iff (sqrtf : ℚ → ℚ) (timeout : ℚ) (digits lossDigits : ℕ)
    (raw : List Char) :
    (∃ e, aggregate sqrtf timeout digits lossDigits raw = .error e) ↔
      ∃ line ∈ jsSplitChar '\n' raw, jsTrim line ≠ [] ∧ ':' ∉ jsTrim line := by
  rw [aggregate, processLines_error_iff]
  constructor
  · rintro ⟨parts, hmem, hlen⟩
    simp only [splitLines, List.mem_map, List.mem_filter] at hmem
    rcases hmem with ⟨l, ⟨hl, hne⟩, rfl⟩
    rcases hl with ⟨a, ha, rfl⟩
    rw [List.length_map] at hlen
    refine ⟨a, ha, ?_, (jsSplitChar_length_lt_two_iff ':' (jsTrim a)).mp hlen⟩
    simpa using hne
  · rintro ⟨line, hline, hne, hnotin⟩
    refine ⟨(jsSplitChar ':' (jsTrim line)).map jsTrim, ?_, ?_⟩
    · simp only [splitLines, List.mem_map, List.mem_filter]
      exact ⟨jsTrim line, ⟨⟨line, hline, rfl⟩, by simpa using hne⟩, rfl⟩
    · rw [List.length_map]
      exact (jsSplitChar_length_lt_two_iff ':' (jsTrim line)).mpr hnotin

/-- Witness for C2 at a concrete input: the raw text `"hi"` satisfies the
right-hand side, so the aggregator errors on it. -/
theorem aggregate_error_iff_witness :
    ∃ e, aggregate id 500 3 4 ['h', 'i'] = .error e :=
  (aggregate_error_iff id 500 3 4 ['h', 'i']).mpr
    ⟨['h', 'i'], by decide, by decide, by decide⟩

/-! ### Shape of the results the aggregator produces -/

theorem processLines_ok_shape (sqrtf : ℚ → ℚ) (timeout : ℚ) (digits lossDigits : ℕ)
    (ls : List (List (List Char))) (acc m : ResultSet)
    (h : processLines sqrtf timeout digits lossDigits ls acc = .ok m) :
    ∀ q ∈ m, q ∈ acc ∨
      ∃ host response, q = (host, mkResult sqrtf timeout digits lossDigits host response) := by
  induction ls generalizing acc with
  | nil =>
    cases h
    intro q hq
    exact Or.inl hq
  | cons parts rest ih =>
    rcases parts with _ | ⟨host, _ | ⟨response, tailcols⟩⟩
    · cases h
    · cases h
    · intro q hq
      rcases ih _ h q hq with hin | hex
      · rcases List.mem_cons.mp hin with h1 | h1
        · exact Or.inr ⟨host, response, h1⟩
        · exact Or.inl h1
      · exact Or.inr hex

theorem aggregate_result_shape (sqrtf : ℚ → ℚ) (timeout : ℚ) (digits lossDigits : ℕ)
    (raw : List Char) (m : ResultSet) (host : List Char) (r : Result)
    (hok : aggregate sqrtf timeout digits lossDigits raw = .ok m)
    (hget : getResult m host = some r) :
    ∃ h2 response, r = mkResult sqrtf timeout digits lossDigits h2 response := by
  rcases Option.map_eq_some'.mp hget with ⟨q, hfind, hq2⟩
  have hmem : q ∈ m := List.mem_of_find?_eq_some hfind
  rcases processLines_ok_shape sqrtf timeout digits lossDigits (splitLines raw) [] m hok q hmem with
    hin | ⟨h2, response, hsh⟩
  · cases hin
  · exact ⟨h2, response, by rw [← hq2, hsh]⟩

/-! ### Bounds for fold-based min, max and the mean -/

theorem foldl_min_le_init (a : ℚ) (xs : List ℚ) : xs.foldl min a ≤ a := by
  induction xs generalizing a with
  | nil => simp
  | cons x xs ih =>
    simp only [List.foldl_cons]
    exact le_trans (ih (min a x)) (min_le_left a x)

theorem foldl_min_le_mem {y : ℚ} {xs : List ℚ} (h : y ∈ xs) (a : ℚ) : xs.foldl min a ≤ y := by
  induction xs generalizing a with
  | nil => cases h
  | cons x xs ih =>
    simp only [List.foldl_cons]
    rcases List.mem_cons.mp h with h1 | h1
    · subst h1
      exact le_trans (foldl_min_le_init (min a y) xs) (min_le_right a y)
    · exact ih h1 (min a x)

theorem le_foldl_max_init (a : ℚ) (xs : List ℚ) : a ≤ xs.foldl max a := by
  induction xs generalizing a with
  | nil => simp
  | cons x xs ih =>
    simp only [List.foldl_cons]
    exact le_trans (le_max_left a x) (ih (max a x))

theorem le_foldl_max_mem {y : ℚ} {xs : List ℚ} (h : y ∈ xs) (a : ℚ) : y ≤ xs.foldl max a := by
  induction xs generalizing a with
  | nil => cases h
  | cons x xs ih =>
    simp only [List.foldl_cons]
    rcases List.mem_cons.mp h with h1 | h1
    · subst h1
      exact le_trans (le_max_right a y) (le_foldl_max_init (max a y) xs)
    · exact ih h1 (max a x)

theorem jsMin_le {l : List ℚ} {y : ℚ} (h : y ∈ l) : jsMin l ≤ y := by
  rcases l with _ | ⟨x, xs⟩
  · cases h
  · rcases List.mem_cons.mp h with h1 | h1
    · subst h1
      exact foldl_min_le_init y xs
    · exact foldl_min_le_mem h1 x

theorem le_jsMax {l : List ℚ} {y : ℚ} (h : y ∈ l) : y ≤ jsMax l := by
  rcases l with _ | ⟨x, xs⟩
  · cases h
  · rcases List.mem_cons.mp h with h1 | h1
    · subst h1
      exact le_foldl_max_init y xs
    · exact le_foldl_max_mem h1 x

theorem jsMin_le_mean {l : List ℚ} (h : l ≠ []) : jsMin l ≤ l.sum / (l.length : ℚ) := by
  have hlen : (0 : ℚ) < (l.length : ℚ) := by
    exact_mod_cast List.length_pos.mpr h
  rw [le_div_iff₀ hlen]
  have hs := List.card_nsmul_le_sum l (jsMin l) fun x hx => jsMin_le hx
  rwa [nsmul_eq_mul, mul_comm] at hs

theorem mean_le_jsMax {l : List ℚ} (h : l ≠ []) : l.sum / (l.length : ℚ) ≤ jsMax l := by
  have hlen : (0 : ℚ) < (l.length : ℚ) := by
    exact_mod_cast List.length_pos.mpr h
  rw [div_le_iff₀ hlen]
  have hs := List.sum_le_card_nsmul l (jsMax l) fun x hx => le_jsMax hx
  rwa [nsmul_eq_mul, mul_comm] at hs

theorem natCast_div_le_one {a b : ℕ} (h : a ≤ b) : ((a : ℚ) / (b : ℚ)) ≤ 1 := by
  rcases Nat.eq_zero_or_pos b with hb | hb
  · subst hb
    simp [Nat.le_zero.mp h]
  · rw [div_le_one (by exact_mod_cast hb)]
    exact_mod_cast h

theorem mkResult_invariants (sqrtf : ℚ → ℚ) (timeout : ℚ) (digits lossDigits : ℕ)
    (host response : List Char) :
    (mkResult sqrtf timeout digits lossDigits host response).sent =
      (mkResult sqrtf timeout digits lossDigits host response).times.length ∧
    (mkResult sqrtf timeout digits lossDigits host response).received ≤
      (mkResult sqrtf timeout digits lossDigits host response).sent ∧
    0 ≤ (mkResult sqrtf timeout digits lossDigits host response).loss ∧
    (mkResult sqrtf timeout digits lossDigits host response).loss ≤ 1 := by
  refine ⟨?_, ?_, ?_, ?_⟩
  · show (parseTimes timeout response).length =
      ((parseTimes timeout response).map (toFixed digits)).length
    rw [List.length_map]
  · show ((parseTimes timeout response).filter fun p => decide (p < timeout)).length ≤
      (parseTimes timeout response).length
    exact List.length_filter_le _ _
  · apply toFixed_nonneg
    have hle := natCast_div_le_one (a := ((parseTimes timeout response).filter
        fun p => decide (p < timeout)).length) (b := (parseTimes timeout response).length)
      (List.length_filter_le _ _)
    linarith
  · apply toFixed_le_one
    have h0 : (0 : ℚ) ≤ ((((parseTimes timeout response).filter
        fun p => decide (p < timeout)).length : ℚ) / ((parseTimes timeout response).length : ℚ)) := by
      positivity
    linarith

/-! ### C6 -/

/-- C6: for every Result produced by the aggregator, the sent count equals
the length of the stored times sequence, received never exceeds sent, and
the loss fraction lies in [0, 1]. -/
theorem result_invariants (sqrtf : ℚ → ℚ) (timeout : ℚ) (digits lossDigits : ℕ)
    (raw : List Char) (m : ResultSet) (host : List Char) (r : Result)
    (hok : aggregate sqrtf timeout digits lossDigits raw = .ok m)
    (hget : getResult m host = some r) :
    r.sent = r.times.length ∧ r.received ≤ r.sent ∧ 0 ≤ r.loss ∧ r.loss ≤ 1 := by
  rcases aggregate_result_shape sqrtf timeout digits lossDigits raw m host r hok hget with
    ⟨h2, resp, rfl⟩
  exact mkResult_invariants sqrtf timeout digits lossDigits h2 resp

/-- Witness for C6: the aggregator run on the raw line `"a:7"`. -/
theorem result_invariants_witness :
    (mkResult id 500 3 4 ['a'] ['7']).sent = (mkResult id 500 3 4 ['a'] ['7']).times.length ∧
    (mkResult id 500 3 4 ['a'] ['7']).received ≤ (mkResult id 500 3 4 ['a'] ['7']).sent ∧
    0 ≤ (mkResult id 500 3 4 ['a'] ['7']).loss ∧ (mkResult id 500 3 4 ['a'] ['7']).loss ≤ 1 :=
  result_invariants id 500 3 4 ['a', ':', '7']
    [(['a'], mkResult id 500 3 4 ['a'] ['7'])] ['a'] (mkResult id 500 3 4 ['a'] ['7']) rfl rfl

/-! ### C7 -/

/-- C7: for every Result produced by the aggregator with nonempty times,
the stored (digits-rounded) min bounds every stored times entry from below,
the stored max bounds it from above, and the stored avg lies between the
stored min and max. -/
theorem minmax_bound_times_and_avg (sqrtf : ℚ → ℚ) (timeout : ℚ) (digits lossDigits : ℕ)
    (raw : List Char) (m : ResultSet) (host : List Char) (r : Result)
    (hok : aggregate sqrtf timeout digits lossDigits raw = .ok m)
    (hget : getResult m host = some r)
    (hne : r.times ≠ []) :
    (∀ x ∈ r.times, r.min ≤ x ∧ x ≤ r.max) ∧ r.min ≤ r.avg ∧ r.avg ≤ r.max := by
  rcases aggregate_result_shape sqrtf timeout digits lossDigits raw m host r hok hget with
    ⟨h2, resp, rfl⟩
  have htne : parseTimes timeout resp ≠ [] := by
    intro h0
    apply hne
    show ((parseTimes timeout resp).map (toFixed digits)) = []
    rw [h0]
    rfl
  refine ⟨?_, ?_, ?_⟩
  · intro x hx
    have hx2 : x ∈ ((parseTimes timeout resp).map (toFixed digits)) := hx
    rcases List.mem_map.mp hx2 with ⟨y, hy, rfl⟩
    constructor
    · show toFixed digits (jsMin (parseTimes timeout resp)) ≤ toFixed digits y
      exact toFixed_mono digits (jsMin_le hy)
    · show toFixed digits y ≤ toFixed digits (jsMax (parseTimes timeout resp))
      exact toFixed_mono digits (le_jsMax hy)
  · show toFixed digits (jsMin (parseTimes timeout resp)) ≤
      toFixed digits ((parseTimes timeout resp).sum / ((parseTimes timeout resp).length : ℚ))
    exact toFixed_mono digits (jsMin_le_mean htne)
  · show toFixed digits ((parseTimes timeout resp).sum / ((parseTimes timeout resp).length : ℚ)) ≤
      toFixed digits (jsMax (parseTimes timeout resp))
    exact toFixed_mono digits (mean_le_jsMax htne)

/-- Witness for C7: the aggregator run on the raw line `"a:7"`, whose
stored times list is nonempty. -/
theorem minmax_bound_times_and_avg_witness :
    (∀ x ∈ (mkResult id 500 3 4 ['a'] ['7']).times,
      (mkResult id 500 3 4 ['a'] ['7']).min ≤ x ∧ x ≤ (mkResult id 500 3 4 ['a'] ['7']).max) ∧
    (mkResult id 500 3 4 ['a'] ['7']).min ≤ (mkResult id 500 3 4 ['a'] ['7']).avg ∧
    (mkResult id 500 3 4 ['a'] ['7']).avg ≤ (mkResult id 500 3 4 ['a'] ['7']).max :=
  minmax_bound_times_and_avg id 500 3 4 ['a', ':', '7']
    [(['a'], mkResult id 500 3 4 ['a'] ['7'])] ['a'] (mkResult id 500 3 4 ['a'] ['7']) rfl rfl
    (List.cons_ne_nil _ _)

/-! ### Validation -/

/-- The sequential validation of the source, summarised: the three hard
checks in source order, with the soft clamps folded into `clampSoft`. -/
theorem validateOptions_eq (o : Options) :
    validateOptions o =
      if o.bytes < 40 then .error "Bytes must be at least 40 bytes"
      else if o.count ≤ 0 then .error "Count must be >= 1"
      else if o.lossDigits < 2 then .error "lossDigits must be at least 2"
      else .ok (clampSoft o) := by
  unfold validateOptions clampSoft
  by_cases hb : o.backoff < 0 <;>
    by_cases hi : o.interval ≤ 0 <;>
      by_cases hp : o.period ≤ 0 <;>
        by_cases hr : o.retry ≤ 0 <;>
          by_cases ht : o.timeout ≤ 0 <;>
            by_cases hd : o.digits ≤ 0 <;>
              simp [hb, hi, hp, hr, ht, hd]

/-! ### C8 -/

/-- C8: validation of a defaulted options structure raises exactly when a
hard-constraint option violates its minimum — `bytes < 40`, `count <= 0` or
`lossDigits < 2`, each with its fixed message, checked in source order —
while the soft constraints (`backoff < 0`, `interval/period/retry/timeout/
digits <= 0`) are silently clamped to 0 and never raise. -/
theorem option_validation (o : Options) :
    ((∃ e, validateOptions o = .error e) ↔
      (o.bytes < 40 ∨ o.count ≤ 0 ∨ o.lossDigits < 2)) ∧
    (o.bytes < 40 → validateOptions o = .error "Bytes must be at least 40 bytes") ∧
    (¬ o.bytes < 40 → o.count ≤ 0 → validateOptions o = .error "Count must be >= 1") ∧
    (¬ o.bytes < 40 → ¬ o.count ≤ 0 → o.lossDigits < 2 →
      validateOptions o = .error "lossDigits must be at least 2") ∧
    (¬ o.bytes < 40 → ¬ o.count ≤ 0 → ¬ o.lossDigits < 2 →
      validateOptions o = .ok (clampSoft o)) := by
  rw [validateOptions_eq]
  by_cases h1 : o.bytes < 40 <;> by_cases h2 : o.count ≤ 0 <;>
    by_cases h3 : o.lossDigits < 2 <;> simp [h1, h2, h3]

/-- Witness for C8: `bytes = 30` raises the bytes message; the default
options validate successfully into their clamped form. -/
theorem option_validation_witness :
    validateOptions ⟨30, 1.5, 1, 10, 1000, 3, true, 500, 3, 4⟩ =
      .error "Bytes must be at least 40 bytes" ∧
    validateOptions ⟨56, 1.5, 1, 10, 1000, 3, true, 500, 3, 4⟩ =
      .ok (clampSoft ⟨56, 1.5, 1, 10, 1000, 3, true, 500, 3, 4⟩) :=
  ⟨(option_validation _).2.1 (by decide),
   (option_validation _).2.2.2.2 (by decide) (by decide) (by decide)⟩

/-! ### C10 -/

/-- C10: the call mutates the caller's options object in place; modelling
that object as explicitly passed state, after the defaulting and clamping
steps every field the caller left unset holds its default, and every
soft-constraint field supplied below its minimum has been overwritten with
the clamp value 0. -/
theorem options_defaulted_and_clamped (p : PartialOptions) (o : Options)
    (h : validateOptions (applyDefaults p) = .ok o) :
    (p.bytes = none → o.bytes = 56) ∧
    (p.backoff = none → o.backoff = 1.5) ∧
    (p.count = none → o.count = 1) ∧
    (p.interval = none → o.interval = 10) ∧
    (p.period = none → o.period = 1000) ∧
    (p.retry = none → o.retry = 3) ∧
    (p.random = none → o.random = true) ∧
    (p.timeout = none → o.timeout = 500) ∧
    (p.digits = none → o.digits = 3) ∧
    (p.lossDigits = none → o.lossDigits = 4) ∧
    (∀ x, p.backoff = some x → x < 0 → o.backoff = 0) ∧
    (∀ x, p.interval = some x → x ≤ 0 → o.interval = 0) ∧
    (∀ x, p.period = some x → x ≤ 0 → o.period = 0) ∧
    (∀ x, p.retry = some x → x ≤ 0 → o.retry = 0) ∧
    (∀ x, p.timeout = some x → x ≤ 0 → o.timeout = 0) ∧
    (∀ x, p.digits = some x → x ≤ 0 → o.digits = 0) := by
  rw [validateOptions_eq] at h
  split_ifs at h
  injection h with h
  subst h
  refine ⟨?_, ?_, ?_, ?_, ?_, ?_, ?_, ?_, ?_, ?_, ?_, ?_, ?_, ?_, ?_, ?_⟩
  · intro hx
    simp [clampSoft, applyDefaults, hx]
  · intro hx
    norm_num [clampSoft, applyDefaults, hx]
  · intro hx
    simp [clampSoft, applyDefaults, hx]
  · intro hx
    norm_num [clampSoft, applyDefaults, hx]
  · intro hx
    norm_num [clampSoft, applyDefaults, hx]
  · intro hx
    norm_num [clampSoft, applyDefaults, hx]
  · intro hx
    simp [clampSoft, applyDefaults, hx]
  · intro hx
    norm_num [clampSoft, applyDefaults, hx]
  · intro hx
    norm_num [clampSoft, applyDefaults, hx]
  · intro hx
    simp [clampSoft, applyDefaults, hx]
  · intro x hx hlt
    simp [clampSoft, applyDefaults, hx, hlt]
  · intro x hx hlt
    simp [clampSoft, applyDefaults, hx, hlt]
  · intro x hx hlt
    simp [clampSoft, applyDefaults, hx, hlt]
  · intro x hx hlt
    simp [clampSoft, applyDefaults, hx, hlt]
  · intro x hx hlt
    simp [clampSoft, applyDefaults, hx, hlt]
  · intro x hx hlt
    simp [clampSoft, applyDefaults, hx, hlt]

/-- Witness for C10: the caller supplies `backoff = -1` (below minimum) and
`interval = 0` (at the clamp boundary) and leaves the rest unset; the
post-call options show the default bytes and the clamped values. -/
theorem options_defaulted_and_clamped_witness :
    (clampSoft (applyDefaults { backoff := some (-1), interval := some 0 })).bytes = 56 ∧
    (clampSoft (applyDefaults { backoff := some (-1), interval := some 0 })).backoff = 0 ∧
    (clampSoft (applyDefaults { backoff := some (-1), interval := some 0 })).interval = 0 := by
  have h := options_defaulted_and_clamped { backoff := some (-1), interval := some 0 }
    (clampSoft (applyDefaults { backoff := some (-1), interval := some 0 })) rfl
  exact ⟨h.1 rfl,
    h.2.2.2.2.2.2.2.2.2.2.1 (-1) rfl (by decide),
    h.2.2.2.2.2.2.2.2.2.2.2.1 0 rfl (by decide)⟩
